import Mathlib

/-!
Verification of the shadow module `gtk/gtkshadow.c`: shadow elements,
reference-counted shadow lists, symbolic-color resolution, serialization
and text-shadow painting.

The C code is embedded shallowly:

* `GtkShadowElement` / `GtkShadow` mirror the two C structs; the `gint16`
  fields are `Int` together with the explicit gdouble-to-gint16 truncation
  `cTrunc` performed by the assignments in `shadow_element_new`.
* Shadows are mutable, reference-counted heap objects in C, so the
  shadow-handling API is modelled over an explicit `Store` mapping
  addresses to shadow objects; nullable pointers are `Option Nat`.
* External collaborators (`GtkSymbolicColor`, `gtk_symbolic_color_resolve`,
  `gtk_symbolic_color_to_string`, `gdk_rgba_to_string`, cairo, Pango) are
  kept abstract: the resolver and the two color printers are parameters,
  and cairo calls are recorded as a trace of `CairoOp` values.
* `_gtk_shadow_resolve` additionally returns the list of arguments the
  external resolver was invoked on, so that claims about which elements
  were (not) resolved are statable.
-/

/-- A concrete color (`GdkRGBA`: four `gdouble` channels, modelled as
rationals); its channels are never interpreted by the shadow code. -/
structure GdkRGBA where
  red : ℚ
  green : ℚ
  blue : ℚ
  alpha : ℚ
deriving DecidableEq

/-- The all-zero color that `g_slice_new0` leaves in a freshly allocated
element whose `color` argument was `NULL`. -/
def rgba0 : GdkRGBA := ⟨0, 0, 0, 0⟩

/-- An unresolved symbolic color expression (`GtkSymbolicColor`), an
external reference-counted object; only its identity matters here. -/
structure GtkSymbolicColor where
  id : Nat
deriving DecidableEq

/-- Truncation toward zero: the conversion a C assignment performs from
`gdouble` to an integer type (C11 6.3.1.4).  For values whose truncation
does not fit the target type the C conversion is undefined, so theorems
about `gint16` fields carry a `gint16Range` hypothesis. -/
def cTrunc (q : ℚ) : Int := if q < 0 then q.ceil else q.floor

/-- Membership in the `gint16` value range. -/
def gint16Range (n : Int) : Prop := -32768 ≤ n ∧ n ≤ 32767

instance (n : Int) : Decidable (gint16Range n) := by
  unfold gint16Range
  infer_instance

/-- `struct _GtkShadowElement`: one shadow layer.  The four geometry
fields are `gint16` in C. -/
structure GtkShadowElement where
  hoffset : Int
  voffset : Int
  radius : Int
  spread : Int
  inset : Bool
  color : GdkRGBA
  symbolic_color : Option GtkSymbolicColor
deriving DecidableEq

/-- `shadow_element_new`: allocates a zero-filled element and assigns the
gdouble geometry arguments to the `gint16` fields (truncating), copies the
concrete color if one is supplied (else the zero fill remains) and takes a
reference on the symbolic color if one is supplied. -/
def shadow_element_new (hoffset voffset radius spread : ℚ) (inset : Bool)
    (color : Option GdkRGBA) (symbolic_color : Option GtkSymbolicColor) :
    GtkShadowElement :=
  { hoffset := cTrunc hoffset
    voffset := cTrunc voffset
    radius := cTrunc radius
    spread := cTrunc spread
    inset := inset
    color := color.getD rgba0
    symbolic_color := symbolic_color }

/-- The `color_str` computation of `shadow_element_to_string`: the symbolic
color's own textual form when a symbolic reference is present, otherwise
the concrete color's textual form.  The two external printers
(`gtk_symbolic_color_to_string`, `gdk_rgba_to_string`) are parameters. -/
def shadow_color_str (symStr : GtkSymbolicColor → String)
    (rgbaStr : GdkRGBA → String) (element : GtkShadowElement) : String :=
  match element.symbolic_color with
  | some sc => symStr sc
  | none => rgbaStr element.color

/-- `shadow_element_to_string`: the sequence of `g_string_append`s —
optional leading inset token, the two offsets (always, via the format
string with a trailing blank), radius and spread only when nonzero, then
the color text. -/
def shadow_element_to_string (symStr : GtkSymbolicColor → String)
    (rgbaStr : GdkRGBA → String) (element : GtkShadowElement) : String :=
  (if element.inset then ("inset ") else (""))
    ++ toString element.hoffset ++ (" ") ++ toString element.voffset ++ (" ")
    ++ (if element.radius ≠ 0 then toString element.radius ++ (" ") else (""))
    ++ (if element.spread ≠ 0 then toString element.spread ++ (" ") else (""))
    ++ shadow_color_str symStr rgbaStr element

/-- `struct _GtkShadow`: element list, reference count, resolved flag. -/
structure GtkShadow where
  elements : List GtkShadowElement
  ref_count : Nat
  resolved : Bool
deriving DecidableEq

/-- The heap of live `GtkShadow` objects: an association list from
addresses to objects plus a supply of fresh addresses. -/
structure Store where
  mem : List (Nat × GtkShadow)
  next : Nat
deriving DecidableEq

/-- Lookup in an association list of shadow objects. -/
def assocLookup (l : List (Nat × GtkShadow)) (h : Nat) : Option GtkShadow :=
  match l with
  | [] => none
  | p :: rest => if p.1 = h then some p.2 else assocLookup rest h

/-- Overwrite a key's binding in an association list. -/
def assocUpdate (l : List (Nat × GtkShadow)) (h : Nat) (o : GtkShadow) :
    List (Nat × GtkShadow) :=
  match l with
  | [] => []
  | p :: rest =>
    if p.1 = h then (h, o) :: assocUpdate rest h o
    else p :: assocUpdate rest h o

/-- Remove a key's bindings from an association list. -/
def assocRemove (l : List (Nat × GtkShadow)) (h : Nat) :
    List (Nat × GtkShadow) :=
  match l with
  | [] => []
  | p :: rest =>
    if p.1 = h then assocRemove rest h
    else p :: assocRemove rest h

/-- Dereference an address. -/
def Store.lookup (s : Store) (h : Nat) : Option GtkShadow :=
  assocLookup s.mem h

/-- Overwrite the object at an address. -/
def Store.update (s : Store) (h : Nat) (o : GtkShadow) : Store :=
  { s with mem := assocUpdate s.mem h o }

/-- Deallocate the object at an address (`g_slice_free`). -/
def Store.free (s : Store) (h : Nat) : Store :=
  { s with mem := assocRemove s.mem h }

/-- Allocate a new object at a fresh address. -/
def Store.alloc (s : Store) (o : GtkShadow) : Store × Nat :=
  ({ mem := (s.next, o) :: s.mem, next := s.next + 1 }, s.next)

/-- Well-formedness: every live address was drawn from the fresh supply. -/
def Store.WF (s : Store) : Prop := ∀ p ∈ s.mem, p.1 < s.next

instance (s : Store) : Decidable s.WF := by
  unfold Store.WF
  infer_instance

/-- `_gtk_shadow_new`: a fresh empty shadow, reference count 1, not
resolved. -/
def _gtk_shadow_new (s : Store) : Store × Nat :=
  s.alloc { elements := [], ref_count := 1, resolved := false }

/-- `_gtk_shadow_ref`: `NULL` is rejected by `g_return_val_if_fail`
(returning `NULL`); otherwise the reference count is incremented and the
same pointer returned.  Dereferencing a dangling pointer is undefined in
C; the model leaves the store unchanged there and theorems assume a live
handle. -/
def _gtk_shadow_ref (s : Store) (shadow : Option Nat) : Store × Option Nat :=
  match shadow with
  | none => (s, none)
  | some h =>
    match s.lookup h with
    | none => (s, some h)
    | some o => (s.update h { o with ref_count := o.ref_count + 1 }, some h)

/-- `_gtk_shadow_get_resolved`. -/
def _gtk_shadow_get_resolved (s : Store) (h : Nat) : Option Bool :=
  (s.lookup h).map fun o => o.resolved

/-- `_gtk_shadow_unref`: `NULL` is rejected by `g_return_if_fail`;
otherwise the count is decremented and, at zero, the elements and the
shadow itself are freed. -/
def _gtk_shadow_unref (s : Store) (shadow : Option Nat) : Store :=
  match shadow with
  | none => s
  | some h =>
    match s.lookup h with
    | none => s
    | some o =>
      if o.ref_count - 1 = 0 then s.free h
      else s.update h { o with ref_count := o.ref_count - 1 }

/-- `_gtk_shadow_append`: `g_return_if_fail` rejects a `NULL` shadow and a
`NULL` symbolic color (each an early return that changes nothing);
otherwise a new symbolic element is built (`color` argument `NULL`) and
appended at the end of the element list. -/
def _gtk_shadow_append (s : Store) (shadow : Option Nat)
    (hoffset voffset radius spread : ℚ) (inset : Bool)
    (color : Option GtkSymbolicColor) : Store :=
  match shadow with
  | none => s
  | some h =>
    match color with
    | none => s
    | some sc =>
      match s.lookup h with
      | none => s
      | some o =>
        s.update h { o with elements := o.elements
          ++ [shadow_element_new hoffset voffset radius spread inset none (some sc)] }

/-- The external `gtk_symbolic_color_resolve`, abstracted over a resolver
function (the `GtkStyleProperties` argument is folded into it); it fails
on a `NULL` symbolic color without consulting the resolver. -/
def gtk_symbolic_color_resolve (resolver : GtkSymbolicColor → Option GdkRGBA)
    (sc : Option GtkSymbolicColor) : Option GdkRGBA :=
  sc.bind resolver

/-- The element loop of `_gtk_shadow_resolve`: resolve each element in
list order; at the first failure stop with `none`.  Besides the resolved
elements it returns the trace of arguments `gtk_symbolic_color_resolve`
was invoked on (one invocation per loop iteration). -/
def shadow_resolve_elements (resolver : GtkSymbolicColor → Option GdkRGBA) :
    List GtkShadowElement →
    Option (List GtkShadowElement) × List (Option GtkSymbolicColor)
  | [] => (some [], [])
  | e :: rest =>
    match gtk_symbolic_color_resolve resolver e.symbolic_color with
    | none => (none, [e.symbolic_color])
    | some color =>
      let r := shadow_resolve_elements resolver rest
      match r.1 with
      | none => (none, e.symbolic_color :: r.2)
      | some res =>
        (some (shadow_element_new e.hoffset e.voffset e.radius e.spread
          e.inset (some color) none :: res), e.symbolic_color :: r.2)

/-- `_gtk_shadow_resolve`: an already-resolved shadow is returned as a new
reference to itself; otherwise a fresh shadow is allocated, each element is
resolved in order into it, the first failure unrefs (frees) the partial
result and returns `NULL`, and on full success the fresh shadow is marked
resolved and returned.  The third component is the resolver-call trace. -/
def _gtk_shadow_resolve (s : Store) (h : Nat)
    (resolver : GtkSymbolicColor → Option GdkRGBA) :
    Store × Option Nat × List (Option GtkSymbolicColor) :=
  match s.lookup h with
  | none => (s, none, [])
  | some o =>
    if o.resolved then
      let r := _gtk_shadow_ref s (some h)
      (r.1, r.2, [])
    else
      let a := _gtk_shadow_new s
      let r := shadow_resolve_elements resolver o.elements
      match r.1 with
      | none => (_gtk_shadow_unref a.1 (some a.2), none, r.2)
      | some es =>
        (a.1.update a.2 { elements := es, ref_count := 1, resolved := true },
          some a.2, r.2)

/-- `_gtk_shadow_to_string`: `NULL` (absence) for an empty list; otherwise
the first element's text followed by `", "` plus the text of each further
element, in list order.  Reading never mutates, so this is a function of
the shadow object. -/
def _gtk_shadow_to_string (symStr : GtkSymbolicColor → String)
    (rgbaStr : GdkRGBA → String) (shadow : GtkShadow) : Option String :=
  match shadow.elements with
  | [] => none
  | e :: rest =>
    some (rest.foldl
      (fun acc el => acc ++ (", ") ++ shadow_element_to_string symStr rgbaStr el)
      (shadow_element_to_string symStr rgbaStr e))

/-- One cairo drawing call, as recorded by the paint trace.  Coordinates
are `gdouble` in cairo; every value the shadow code passes is an integer
(`0` or a `gint16` field), so they are recorded as `Int`. -/
inductive CairoOp where
  | move_to (x y : Int)
  | rel_move_to (dx dy : Int)
  | set_source_rgba (c : GdkRGBA)
  | fill_layout
  | save
  | restore
deriving DecidableEq

/-- The cairo calls the body of the paint loop issues for one element. -/
def shadow_paint_element (e : GtkShadowElement) : List CairoOp :=
  [CairoOp.save,
   CairoOp.rel_move_to e.hoffset e.voffset,
   CairoOp.set_source_rgba e.color,
   CairoOp.fill_layout,
   CairoOp.rel_move_to (-e.hoffset) (-e.voffset),
   CairoOp.restore]

/-- The paint loop, walking the element list it is given in order
(`_gtk_text_shadow_paint_layout` hands it the reversed list, mirroring the
`g_list_last`/`prev` iteration). -/
def shadow_paint_loop : List GtkShadowElement → List CairoOp
  | [] => []
  | e :: rest => shadow_paint_element e ++ shadow_paint_loop rest

/-- `_gtk_text_shadow_paint_layout`: if the cairo context has no current
point, establish one at the origin; then paint the elements from the last
to the first.  `hasCurrentPoint` is the state `cairo_has_current_point`
reports on entry; the result is the trace of cairo calls.  The function
only reads the shadow, so the shadow list is not mutated. -/
def _gtk_text_shadow_paint_layout (shadow : GtkShadow)
    (hasCurrentPoint : Bool) : List CairoOp :=
  (if hasCurrentPoint then [] else [CairoOp.move_to 0 0])
    ++ shadow_paint_loop shadow.elements.reverse

/-- Shadow contents (element list and resolved flag) reachable by defined
sequences of the public operations: a fresh shadow, appending to an
unresolved shadow (appending to a resolved one is not a defined operation
per the module's contract), and the output of a successful resolution.
`ref`/`unref` only touch the reference count and so preserve contents. -/
inductive ReachableShadow : List GtkShadowElement → Bool → Prop where
  | new : ReachableShadow [] false
  | append (es : List GtkShadowElement) (hoffset voffset radius spread : ℚ)
      (inset : Bool) (sc : GtkSymbolicColor) :
      ReachableShadow es false →
      ReachableShadow
        (es ++ [shadow_element_new hoffset voffset radius spread inset none (some sc)])
        false
  | resolve (resolver : GtkSymbolicColor → Option GdkRGBA)
      (es es' : List GtkShadowElement) (calls : List (Option GtkSymbolicColor)) :
      ReachableShadow es false →
      shadow_resolve_elements resolver es = (some es', calls) →
      ReachableShadow es' true

/-! ### Supporting lemmas -/

theorem cTrunc_intCast (n : Int) : cTrunc (n : ℚ) = n := by
  unfold cTrunc Rat.ceil Rat.floor
  simp [Rat.den_intCast, Rat.num_intCast]

theorem shadow_element_new_intCast (ho vo r sp : Int) (i : Bool)
    (c : Option GdkRGBA) (sc : Option GtkSymbolicColor) :
    shadow_element_new (ho : ℚ) (vo : ℚ) (r : ℚ) (sp : ℚ) i c sc =
      { hoffset := ho, voffset := vo, radius := r, spread := sp, inset := i,
        color := c.getD rgba0, symbolic_color := sc } := by
  unfold shadow_element_new
  simp [cTrunc_intCast]

theorem assocLookup_update_self (l : List (Nat × GtkShadow)) (h : Nat)
    (o o' : GtkShadow) (hl : assocLookup l h = some o) :
    assocLookup (assocUpdate l h o') h = some o' := by
  induction l with
  | nil => simp [assocLookup] at hl
  | cons p rest ih =>
    by_cases hp : p.1 = h
    · simp [assocLookup, assocUpdate, hp]
    · simp [assocLookup, assocUpdate, hp] at hl ⊢
      exact ih hl

theorem assocLookup_update_ne (l : List (Nat × GtkShadow)) (h h' : Nat)
    (o' : GtkShadow) (hne : h' ≠ h) :
    assocLookup (assocUpdate l h o') h' = assocLookup l h' := by
  induction l with
  | nil => simp [assocLookup, assocUpdate]
  | cons p rest ih =>
    by_cases hp : p.1 = h
    · subst hp
      simp [assocLookup, assocUpdate, Ne.symm hne, ih]
    · by_cases hp' : p.1 = h'
      · simp [assocLookup, assocUpdate, hp, hp', hne]
      · simp [assocLookup, assocUpdate, hp, hp', ih]

theorem assocLookup_remove_ne (l : List (Nat × GtkShadow)) (h h' : Nat)
    (hne : h' ≠ h) :
    assocLookup (assocRemove l h) h' = assocLookup l h' := by
  induction l with
  | nil => simp [assocLookup, assocRemove]
  | cons p rest ih =>
    by_cases hp : p.1 = h
    · subst hp
      simp [assocLookup, assocRemove, Ne.symm hne, ih]
    · by_cases hp' : p.1 = h'
      · simp [assocLookup, assocRemove, hp, hp', hne]
      · simp [assocLookup, assocRemove, hp, hp', ih]

theorem assocRemove_eq_self (l : List (Nat × GtkShadow)) (h : Nat)
    (hl : ∀ p ∈ l, p.1 ≠ h) : assocRemove l h = l := by
  induction l with
  | nil => rfl
  | cons p rest ih =>
    have hp := hl p (by simp)
    simp [assocRemove, hp]
    exact ih fun q hq => hl q (by simp [hq])

theorem assocLookup_lt (l : List (Nat × GtkShadow)) (h : Nat) (n : Nat)
    (o : GtkShadow) (hwf : ∀ p ∈ l, p.1 < n) (hl : assocLookup l h = some o) :
    h < n := by
  induction l with
  | nil => simp [assocLookup] at hl
  | cons p rest ih =>
    by_cases hp : p.1 = h
    · exact hp ▸ hwf p (by simp)
    · simp [assocLookup, hp] at hl
      exact ih (fun q hq => hwf q (by simp [hq])) hl

theorem assocLookup_ge (l : List (Nat × GtkShadow)) (h : Nat) (n : Nat)
    (hwf : ∀ p ∈ l, p.1 < n) (hge : n ≤ h) : assocLookup l h = none := by
  cases hl : assocLookup l h with
  | none => rfl
  | some o => exact absurd hge (Nat.not_le.mpr (assocLookup_lt l h n o hwf hl))

theorem Store.lookup_next (s : Store) (hwf : s.WF) : s.lookup s.next = none :=
  assocLookup_ge s.mem s.next s.next hwf (Nat.le_refl _)

theorem Store.lookup_lt (s : Store) (h : Nat) (o : GtkShadow) (hwf : s.WF)
    (hl : s.lookup h = some o) : h < s.next :=
  assocLookup_lt s.mem h s.next o hwf hl

theorem shadow_resolve_elements_fail
    (resolver : GtkSymbolicColor → Option GdkRGBA)
    (pre : List GtkShadowElement) (e : GtkShadowElement)
    (post : List GtkShadowElement)
    (hpre : ∀ e' ∈ pre, (gtk_symbolic_color_resolve resolver e'.symbolic_color).isSome)
    (hfail : gtk_symbolic_color_resolve resolver e.symbolic_color = none) :
    shadow_resolve_elements resolver (pre ++ e :: post) =
      (none, pre.map (fun e' => e'.symbolic_color) ++ [e.symbolic_color]) := by
  induction pre with
  | nil => simp [shadow_resolve_elements, hfail]
  | cons a rest ih =>
    obtain ⟨c, hc⟩ := Option.isSome_iff_exists.mp (hpre a (by simp))
    have hrest := ih fun e' he' => hpre e' (by simp [he'])
    simp [shadow_resolve_elements, hc, hrest]

theorem shadow_resolve_elements_ok
    (resolver : GtkSymbolicColor → Option GdkRGBA)
    (rc : GtkSymbolicColor → GdkRGBA) (l : List GtkShadowElement)
    (hl : ∀ e ∈ l, ∃ sc, e.symbolic_color = some sc ∧ resolver sc = some (rc sc)) :
    shadow_resolve_elements resolver l =
      (some (l.map fun e =>
        { hoffset := e.hoffset, voffset := e.voffset, radius := e.radius,
          spread := e.spread, inset := e.inset,
          color := (e.symbolic_color.map rc).getD rgba0,
          symbolic_color := none }),
       l.map fun e => e.symbolic_color) := by
  induction l with
  | nil => simp [shadow_resolve_elements]
  | cons a rest ih =>
    obtain ⟨sc, hsc, hres⟩ := hl a (by simp)
    have hrest := ih fun e he => hl e (by simp [he])
    simp [shadow_resolve_elements, gtk_symbolic_color_resolve, hsc, hres, hrest,
      shadow_element_new_intCast]

/-- The textual join the specification describes: the pieces in order,
separated by the separator. -/
def joinSep (sep : String) : List String → String
  | [] => ""
  | [s] => s
  | s :: rest => s ++ sep ++ joinSep sep rest

theorem joinSep_cons_append (sep a b : String) (rest : List String) :
    joinSep sep ((a ++ sep ++ b) :: rest) = a ++ sep ++ joinSep sep (b :: rest) := by
  cases rest with
  | nil => simp [joinSep]
  | cons c cs => simp [joinSep, String.append_assoc]

theorem foldl_joinSep (f : GtkShadowElement → String)
    (l : List GtkShadowElement) (a : String) :
    l.foldl (fun acc el => acc ++ (", ") ++ f el) a = joinSep (", ") (a :: l.map f) := by
  induction l generalizing a with
  | nil => simp [joinSep]
  | cons e rest ih =>
    simp only [List.foldl_cons, List.map_cons]
    rw [ih, joinSep_cons_append]
    simp [joinSep]

/-- Recognizer for the fill call in a cairo trace. -/
def isFillOp : CairoOp → Bool
  | CairoOp.fill_layout => true
  | _ => false

/-- The color a cairo call installs as source, if it is a source call. -/
def sourceColorOf : CairoOp → Option GdkRGBA
  | CairoOp.set_source_rgba c => some c
  | _ => none

theorem shadow_paint_loop_eq (l : List GtkShadowElement) :
    shadow_paint_loop l = l.flatMap shadow_paint_element := by
  induction l with
  | nil => rfl
  | cons e rest ih => simp [shadow_paint_loop, ih]

theorem shadow_paint_loop_fill_count (l : List GtkShadowElement) :
    ((shadow_paint_loop l).filter isFillOp).length = l.length := by
  induction l with
  | nil => rfl
  | cons e rest ih =>
    simp [shadow_paint_loop, shadow_paint_element, isFillOp, List.filter_append, ih]

theorem shadow_paint_loop_colors (l : List GtkShadowElement) :
    (shadow_paint_loop l).filterMap sourceColorOf = l.map fun e => e.color := by
  induction l with
  | nil => rfl
  | cons e rest ih =>
    simp [shadow_paint_loop, shadow_paint_element, sourceColorOf,
      List.filterMap_append, ih]

/-! ### Concrete objects for witnesses -/

/-- A symbolic color the witness resolvers can resolve. -/
def scA : GtkSymbolicColor := ⟨0⟩

/-- A symbolic color the witness resolvers fail on. -/
def scB : GtkSymbolicColor := ⟨1⟩

/-- A concrete witness color. -/
def rgbaRed : GdkRGBA := ⟨1, 0, 0, 1⟩

/-- A symbolic element as `_gtk_shadow_append` builds it from `scA`. -/
def elemA : GtkShadowElement := ⟨1, 2, 0, 0, false, rgba0, some scA⟩

/-- A symbolic element as `_gtk_shadow_append` builds it from `scB`. -/
def elemB : GtkShadowElement := ⟨3, 4, 0, 0, false, rgba0, some scB⟩

/-- A store holding one already-resolved shadow at address 0. -/
def storeResolved : Store := ⟨[(0, ⟨[], 1, true⟩)], 1⟩

/-- A store holding one unresolved two-element shadow at address 0. -/
def storeTwo : Store := ⟨[(0, ⟨[elemA, elemB], 1, false⟩)], 1⟩

/-- A store holding one unresolved one-element shadow at address 0. -/
def storeOne : Store := ⟨[(0, ⟨[elemA], 1, false⟩)], 1⟩

/-- A resolver that resolves `scA` and fails on everything else. -/
def resolverA : GtkSymbolicColor → Option GdkRGBA :=
  fun sc => if sc.id = 0 then some rgbaRed else none

/-! ### Claim theorems -/

/-- C2: idempotent resolution — on a shadow whose `resolved` flag is
already set, `_gtk_shadow_resolve` returns the very same handle (not a
copy: the heap gains no new object), only increments that shadow's
reference count, and invokes the resolver on nothing. -/
theorem resolve_idempotent (s : Store) (h : Nat) (o : GtkShadow)
    (resolver : GtkSymbolicColor → Option GdkRGBA)
    (hl : s.lookup h = some o) (hr : o.resolved = true) :
    _gtk_shadow_resolve s h resolver =
      (s.update h { o with ref_count := o.ref_count + 1 }, some h, []) := by
  unfold _gtk_shadow_resolve _gtk_shadow_ref
  rw [hl]
  simp [hr, hl]

/-- C2 witness: the idempotence theorem applied to a concrete resolved
shadow; the same address comes back and only its count changed. -/
theorem resolve_idempotent_witness :
    _gtk_shadow_resolve storeResolved 0 (fun _ => none) =
      (⟨[(0, ⟨[], 2, true⟩)], 1⟩, some 0, []) := by
  have h := resolve_idempotent storeResolved 0 ⟨[], 1, true⟩ (fun _ => none)
    (by decide) (by decide)
  exact h.trans (by decide)

/-- How `_gtk_shadow_resolve` behaves on an unresolved shadow when the
element loop fails: the freshly allocated output shadow is unreffed, which
frees it, so the heap keeps only the old objects (any stale binding at the
fresh address being impossible in a well-formed store). -/
theorem resolve_unresolved_fail (s : Store) (h : Nat) (o : GtkShadow)
    (resolver : GtkSymbolicColor → Option GdkRGBA)
    (hl : s.lookup h = some o) (hr : o.resolved = false)
    (hloop : (shadow_resolve_elements resolver o.elements).1 = none) :
    _gtk_shadow_resolve s h resolver =
      ({ mem := assocRemove s.mem s.next, next := s.next + 1 }, none,
        (shadow_resolve_elements resolver o.elements).2) := by
  have hl' : assocLookup s.mem h = some o := hl
  unfold _gtk_shadow_resolve _gtk_shadow_new Store.alloc _gtk_shadow_unref
      Store.lookup Store.free
  rw [hl']
  simp [hr, hloop, assocLookup, assocRemove]

/-- How `_gtk_shadow_resolve` behaves on an unresolved shadow when the
element loop succeeds: the freshly allocated shadow ends up holding the
resolved elements with reference count 1 and the resolved flag set. -/
theorem resolve_unresolved_ok (s : Store) (h : Nat) (o : GtkShadow)
    (resolver : GtkSymbolicColor → Option GdkRGBA)
    (es : List GtkShadowElement)
    (hl : s.lookup h = some o) (hr : o.resolved = false)
    (hloop : (shadow_resolve_elements resolver o.elements).1 = some es) :
    _gtk_shadow_resolve s h resolver =
      ({ mem := (s.next, GtkShadow.mk es 1 true) ::
            assocUpdate s.mem s.next (GtkShadow.mk es 1 true),
         next := s.next + 1 }, some s.next,
        (shadow_resolve_elements resolver o.elements).2) := by
  unfold _gtk_shadow_resolve _gtk_shadow_new Store.alloc Store.update
  rw [hl]
  simp [hr, hloop, assocUpdate]

/-- C7: resolution never mutates its source — whatever the outcome, the
source shadow is still live at its address with the same element sequence
(hence every field of every element unchanged) and the same resolved flag;
when it was unresolved (in particular on failure) it is unchanged
entirely. -/
theorem resolve_preserves_source (s : Store) (h : Nat) (o : GtkShadow)
    (resolver : GtkSymbolicColor → Option GdkRGBA)
    (hwf : s.WF) (hl : s.lookup h = some o) :
    ∃ o', (_gtk_shadow_resolve s h resolver).1.lookup h = some o' ∧
      o'.elements = o.elements ∧ o'.resolved = o.resolved ∧
      (o.resolved = false → o' = o) := by
  have hlt : h < s.next := Store.lookup_lt s h o hwf hl
  have hne : h ≠ s.next := Nat.ne_of_lt hlt
  cases hres : o.resolved with
  | true =>
    refine ⟨{ o with ref_count := o.ref_count + 1 }, ?_, rfl, by simp [hres], ?_⟩
    · rw [resolve_idempotent s h o resolver hl hres]
      exact assocLookup_update_self s.mem h o _ hl
    · intro hf
      exact absurd hf (by simp)
  | false =>
    refine ⟨o, ?_, rfl, hres, fun _ => rfl⟩
    cases hloop : (shadow_resolve_elements resolver o.elements).1 with
    | none =>
      rw [resolve_unresolved_fail s h o resolver hl hres hloop]
      exact (assocLookup_remove_ne s.mem s.next h hne).trans hl
    | some es =>
      rw [resolve_unresolved_ok s h o resolver es hl hres hloop]
      show assocLookup
        ((s.next, GtkShadow.mk es 1 true) ::
          assocUpdate s.mem s.next (GtkShadow.mk es 1 true)) h = some o
      rw [assocLookup, if_neg (Ne.symm hne)]
      exact (assocLookup_update_ne s.mem s.next h _ hne).trans hl

/-- C7 witness: resolving a concrete unresolved shadow with a resolver
that fails on its second element leaves the source object intact. -/
theorem resolve_preserves_source_witness :
    ∃ o', (_gtk_shadow_resolve storeTwo 0 resolverA).1.lookup 0 = some o' ∧
      o'.elements = (⟨[elemA, elemB], 1, false⟩ : GtkShadow).elements ∧
      o'.resolved = (⟨[elemA, elemB], 1, false⟩ : GtkShadow).resolved ∧
      ((⟨[elemA, elemB], 1, false⟩ : GtkShadow).resolved = false →
        o' = ⟨[elemA, elemB], 1, false⟩) :=
  resolve_preserves_source storeTwo 0 ⟨[elemA, elemB], 1, false⟩ resolverA
    (by decide) (by decide)

/-- C1: fail-fast resolution — if, on an unresolved shadow, the external
resolver fails on some element while every earlier element resolves, then
`_gtk_shadow_resolve` returns the failure signal `none` rather than any
list, the partially built output shadow and its elements are released (the
final heap contains exactly the objects of the initial heap, so no partial
list is observable), and the resolver is not invoked on any element after
the first failing one. -/
theorem resolve_fail_fast (s : Store) (h : Nat) (o : GtkShadow)
    (resolver : GtkSymbolicColor → Option GdkRGBA)
    (pre : List GtkShadowElement) (e : GtkShadowElement)
    (post : List GtkShadowElement)
    (hwf : s.WF) (hl : s.lookup h = some o) (hr : o.resolved = false)
    (helems : o.elements = pre ++ e :: post)
    (hpre : ∀ e' ∈ pre, (gtk_symbolic_color_resolve resolver e'.symbolic_color).isSome)
    (hfail : gtk_symbolic_color_resolve resolver e.symbolic_color = none) :
    _gtk_shadow_resolve s h resolver =
      ({ mem := s.mem, next := s.next + 1 }, none,
        pre.map (fun e' => e'.symbolic_color) ++ [e.symbolic_color]) := by
  have hloop := shadow_resolve_elements_fail resolver pre e post hpre hfail
  have hrem : assocRemove s.mem s.next = s.mem :=
    assocRemove_eq_self s.mem s.next fun p hp => Nat.ne_of_lt (hwf p hp)
  rw [resolve_unresolved_fail s h o resolver hl hr (by rw [helems, hloop]),
    hrem, helems, hloop]

/-- C1 witness: on a shadow appended from `[scA, scB]` with a resolver
failing on `scB`, resolution yields only the failure signal, the heap is
as before, and the resolver was called on `scA` and `scB` only. -/
theorem resolve_fail_fast_witness :
    _gtk_shadow_resolve storeTwo 0 resolverA =
      (⟨[(0, ⟨[elemA, elemB], 1, false⟩)], 2⟩, none, [some scA, some scB]) := by
  have h := resolve_fail_fast storeTwo 0 ⟨[elemA, elemB], 1, false⟩ resolverA
    [elemA] elemB [] (by decide) (by decide) (by decide) (by decide)
    (by decide) (by decide)
  exact h.trans (by decide)

theorem assocUpdate_eq_self (l : List (Nat × GtkShadow)) (h : Nat)
    (o : GtkShadow) (hl : ∀ p ∈ l, p.1 ≠ h) : assocUpdate l h o = l := by
  induction l with
  | nil => rfl
  | cons p rest ih =>
    have hp := hl p (by simp)
    simp [assocUpdate, hp]
    exact ih fun q hq => hl q (by simp [hq])

/-- C6: successful resolution postcondition — when every element of an
unresolved shadow resolves (`rc` giving the resolver's answers), resolve
allocates a new shadow at a fresh address (not previously live), with
reference count 1 and the resolved flag set, whose i-th element carries
the resolver's color for the i-th source element, copies offsets, radius,
spread and inset verbatim, and retains no symbolic reference; the old heap
objects are untouched and the resolver was invoked on every element in
order. -/
theorem resolve_success (s : Store) (h : Nat) (o : GtkShadow)
    (resolver : GtkSymbolicColor → Option GdkRGBA)
    (rc : GtkSymbolicColor → GdkRGBA)
    (hwf : s.WF) (hl : s.lookup h = some o) (hr : o.resolved = false)
    (hall : ∀ e ∈ o.elements,
      ∃ sc, e.symbolic_color = some sc ∧ resolver sc = some (rc sc)) :
    s.lookup s.next = none ∧
    _gtk_shadow_resolve s h resolver =
      ({ mem := (s.next, GtkShadow.mk (o.elements.map fun e =>
              GtkShadowElement.mk e.hoffset e.voffset e.radius e.spread e.inset
                ((e.symbolic_color.map rc).getD rgba0) none) 1 true) :: s.mem,
         next := s.next + 1 }, some s.next,
        o.elements.map fun e => e.symbolic_color) := by
  have hloop := shadow_resolve_elements_ok resolver rc o.elements hall
  have hes1 : (shadow_resolve_elements resolver o.elements).1 =
      some (o.elements.map fun e =>
        GtkShadowElement.mk e.hoffset e.voffset e.radius e.spread e.inset
          ((e.symbolic_color.map rc).getD rgba0) none) := by
    rw [hloop]
  refine ⟨Store.lookup_next s hwf, ?_⟩
  rw [resolve_unresolved_ok s h o resolver _ hl hr hes1,
    assocUpdate_eq_self s.mem s.next _ fun p hp => Nat.ne_of_lt (hwf p hp),
    hloop]

/-- C6 witness: resolving a concrete one-element shadow with a total
resolver yields the expected fresh resolved shadow and call trace. -/
theorem resolve_success_witness :
    _gtk_shadow_resolve storeOne 0 (fun _ => some rgbaRed) =
      (⟨[(1, ⟨[⟨1, 2, 0, 0, false, rgbaRed, none⟩], 1, true⟩),
          (0, ⟨[elemA], 1, false⟩)], 2⟩, some 1, [some scA]) := by
  have h := (resolve_success storeOne 0 ⟨[elemA], 1, false⟩
    (fun _ => some rgbaRed) (fun _ => rgbaRed) (by decide) (by decide) (by decide)
    (fun e he => by
      rw [List.mem_singleton] at he
      subst he
      exact ⟨scA, rfl, rfl⟩)).2
  exact h.trans (by decide)

theorem shadow_resolve_elements_concrete
    (resolver : GtkSymbolicColor → Option GdkRGBA) :
    ∀ (l es' : List GtkShadowElement),
    (shadow_resolve_elements resolver l).1 = some es' →
    ∀ e ∈ es', e.symbolic_color = none := by
  intro l
  induction l with
  | nil =>
    intro es' heq e he
    simp [shadow_resolve_elements] at heq
    subst heq
    simp at he
  | cons a rest ih =>
    intro es' heq e he
    unfold shadow_resolve_elements at heq
    cases hc : gtk_symbolic_color_resolve resolver a.symbolic_color with
    | none =>
      rw [hc] at heq
      simp at heq
    | some c =>
      rw [hc] at heq
      simp only at heq
      cases hrest : (shadow_resolve_elements resolver rest).1 with
      | none =>
        rw [hrest] at heq
        simp at heq
      | some res =>
        rw [hrest] at heq
        simp only [Option.some.injEq] at heq
        subst heq
        rcases List.mem_cons.mp he with he | he
        · subst he
          rfl
        · exact ih res hrest e he

/-- C5 counterexample: the claimed biconditional "resolved flag true iff
every element concrete" fails on the code at the concrete reachable input
of a freshly constructed shadow: its element list is empty (so vacuously
every element is concrete) yet its resolved flag is false. -/
theorem resolved_iff_concrete_cex :
    ¬ (∀ (es : List GtkShadowElement) (b : Bool), ReachableShadow es b →
      ((b = true) ↔ ∀ e ∈ es, e.symbolic_color = none)) := fun hcl => by
  have h := (hcl [] false ReachableShadow.new).mpr (by simp)
  exact absurd h (by simp)

/-- C5 (amended): the forward direction of the invariant holds — every
shadow reachable by defined operation sequences whose resolved flag is
true consists solely of concrete elements (no symbolic reference); no
defined sequence yields a resolved shadow containing a symbolic element.
The converse direction fails only on the vacuous empty unresolved list. -/
theorem resolved_implies_concrete (es : List GtkShadowElement) (b : Bool)
    (hre : ReachableShadow es b) (hb : b = true) :
    ∀ e ∈ es, e.symbolic_color = none := by
  induction hre with
  | new => exact absurd hb (by simp)
  | append es ho vo r sp i sc hre ih => exact absurd hb (by simp)
  | resolve resolver es es' calls hre heq ih =>
    exact shadow_resolve_elements_concrete resolver es es'
      (congrArg Prod.fst heq) 

/-- C5 witness: a concrete resolved shadow obtained by new, append and a
successful resolve; the invariant reports its element concrete. -/
theorem resolved_implies_concrete_witness :
    (GtkShadowElement.mk 0 0 0 0 false rgbaRed none).symbolic_color = none :=
  resolved_implies_concrete [GtkShadowElement.mk 0 0 0 0 false rgbaRed none]
    true
    (ReachableShadow.resolve (fun _ => some rgbaRed)
      [shadow_element_new 0 0 0 0 false none (some scA)]
      [GtkShadowElement.mk 0 0 0 0 false rgbaRed none] [some scA]
      (ReachableShadow.append [] 0 0 0 0 false scA ReachableShadow.new)
      (by decide))
    rfl
    (GtkShadowElement.mk 0 0 0 0 false rgbaRed none)
    (by decide)

/-- C4 counterexample: a fractional value is not stored unchanged — the
gdouble-to-gint16 assignment truncates 5/2 (supplied as `h_offset`) to 2,
and serialization prints the truncated integer, not the supplied value. -/
theorem element_new_truncates :
    (Rat.mk' 5 2 : ℚ) = 5 / 2 ∧
    ((shadow_element_new (Rat.mk' 5 2) 0 0 0 false none none).hoffset : ℚ)
        ≠ Rat.mk' 5 2 ∧
    shadow_element_to_string (fun _ => ("sym")) (fun _ => ("red"))
        (shadow_element_new (Rat.mk' 5 2) 0 0 0 false none none) = ("2 0 red") := by
  refine ⟨?_, by decide, by decide⟩
  rw [Rat.mk'_eq_divInt, Rat.divInt_eq_div]
  norm_num

/-- C4 (amended): construction performs no range validation and never
rejects a value, but the geometry arguments are converted to `gint16`
(fractional part truncated toward zero); an integral value within the
gint16 range — negative radius and spread included — is stored unchanged
and carried through to serialization exactly as supplied. -/
theorem element_new_passthrough (ho vo r sp : Int) (i : Bool)
    (c : Option GdkRGBA) (sc : Option GtkSymbolicColor)
    (h1 : gint16Range ho) (h2 : gint16Range vo) (h3 : gint16Range r)
    (h4 : gint16Range sp) :
    shadow_element_new (ho : ℚ) (vo : ℚ) (r : ℚ) (sp : ℚ) i c sc =
      { hoffset := ho, voffset := vo, radius := r, spread := sp, inset := i,
        color := c.getD rgba0, symbolic_color := sc } ∧
    ∀ (symStr : GtkSymbolicColor → String) (rgbaStr : GdkRGBA → String),
      shadow_element_to_string symStr rgbaStr
          (shadow_element_new (ho : ℚ) (vo : ℚ) (r : ℚ) (sp : ℚ) i c sc) =
        (if i then ("inset ") else ("")) ++ toString ho ++ (" ")
          ++ toString vo ++ (" ")
          ++ (if r ≠ 0 then toString r ++ (" ") else (""))
          ++ (if sp ≠ 0 then toString sp ++ (" ") else (""))
          ++ shadow_color_str symStr rgbaStr
              (shadow_element_new (ho : ℚ) (vo : ℚ) (r : ℚ) (sp : ℚ) i c sc) := by
  refine ⟨shadow_element_new_intCast ho vo r sp i c sc, ?_⟩
  intro symStr rgbaStr
  rw [shadow_element_to_string, shadow_element_new_intCast ho vo r sp i c sc]

/-- C4 witness: offsets 2 2, radius -3 and spread 0 are all in range and
pass through construction unchanged. -/
theorem element_new_passthrough_witness :
    shadow_element_new ((2 : Int) : ℚ) ((2 : Int) : ℚ) ((-3 : Int) : ℚ)
        ((0 : Int) : ℚ) false none (some scA) =
      { hoffset := 2, voffset := 2, radius := -3, spread := 0, inset := false,
        color := rgba0, symbolic_color := some scA } :=
  (element_new_passthrough 2 2 (-3) 0 false none (some scA)
    (by decide) (by decide) (by decide) (by decide)).1

/-- C3: paint order and bracketing — painting first establishes a current
point at the origin exactly when the context has none, then walks the
element list in reverse append order, and for each element emits save,
relative move by its offsets, source color, fill, inverse relative move,
restore; there are exactly N fills and the painted colors are the
elements' colors in reverse append order.  Painting is a pure function of
the shadow: the shadow list is not mutated. -/
theorem paint_layout_spec (shadow : GtkShadow) (hasCurrentPoint : Bool) :
    _gtk_text_shadow_paint_layout shadow hasCurrentPoint =
      (if hasCurrentPoint then [] else [CairoOp.move_to 0 0]) ++
        (shadow.elements.reverse.flatMap fun e =>
          [CairoOp.save, CairoOp.rel_move_to e.hoffset e.voffset,
           CairoOp.set_source_rgba e.color, CairoOp.fill_layout,
           CairoOp.rel_move_to (-e.hoffset) (-e.voffset), CairoOp.restore]) ∧
    ((_gtk_text_shadow_paint_layout shadow hasCurrentPoint).filter
        isFillOp).length = shadow.elements.length ∧
    (_gtk_text_shadow_paint_layout shadow hasCurrentPoint).filterMap
        sourceColorOf = (shadow.elements.map fun e => e.color).reverse := by
  refine ⟨?_, ?_, ?_⟩
  · unfold _gtk_text_shadow_paint_layout
    rw [shadow_paint_loop_eq]
    rfl
  · unfold _gtk_text_shadow_paint_layout
    cases hasCurrentPoint <;>
      simp [List.filter_append, isFillOp, shadow_paint_loop_fill_count]
  · unfold _gtk_text_shadow_paint_layout
    cases hasCurrentPoint <;>
      simp [List.filterMap_append, sourceColorOf, shadow_paint_loop_colors,
        List.map_reverse]

/-- C8: list serialization — an empty shadow serializes to absence
(`none`, never the empty string); a non-empty one to the element texts in
append order joined by the two-character separator, a single-element
shadow giving just that element's text. -/
theorem to_string_spec (symStr : GtkSymbolicColor → String)
    (rgbaStr : GdkRGBA → String) (shadow : GtkShadow) :
    _gtk_shadow_to_string symStr rgbaStr shadow =
      (if shadow.elements.isEmpty then none
       else some (joinSep (", ")
         (shadow.elements.map (shadow_element_to_string symStr rgbaStr)))) ∧
    ∀ (e : GtkShadowElement) (n : Nat) (b : Bool),
      _gtk_shadow_to_string symStr rgbaStr (GtkShadow.mk [e] n b) =
        some (shadow_element_to_string symStr rgbaStr e) := by
  constructor
  · cases hel : shadow.elements with
    | nil => simp [_gtk_shadow_to_string, hel]
    | cons e rest => simp [_gtk_shadow_to_string, hel, foldl_joinSep]
  · intro e n b
    rfl

/-- C9: element serialization — fixed field order (optional inset token,
both offsets always, radius exactly when nonzero — so a negative radius is
printed —, spread exactly when nonzero, then the color text taken from the
symbolic form when a symbolic reference is present and from the concrete
form otherwise); an element with offsets 2 2, zero radius and spread and
no inset serializes as the two offsets followed by the color text. -/
theorem element_to_string_spec (symStr : GtkSymbolicColor → String)
    (rgbaStr : GdkRGBA → String) (e : GtkShadowElement) :
    shadow_element_to_string symStr rgbaStr e =
      (if e.inset then ("inset ") else (""))
        ++ toString e.hoffset ++ (" ") ++ toString e.voffset ++ (" ")
        ++ (if e.radius = 0 then ("") else toString e.radius ++ (" "))
        ++ (if e.spread = 0 then ("") else toString e.spread ++ (" "))
        ++ shadow_color_str symStr rgbaStr e ∧
    (∀ sc, e.symbolic_color = some sc →
      shadow_color_str symStr rgbaStr e = symStr sc) ∧
    (e.symbolic_color = none →
      shadow_color_str symStr rgbaStr e = rgbaStr e.color) ∧
    ∀ (c : GdkRGBA) (sc : GtkSymbolicColor),
      shadow_element_to_string symStr rgbaStr
          (GtkShadowElement.mk 2 2 0 0 false c (some sc)) =
        ("2 2 ") ++ symStr sc := by
  refine ⟨?_, ?_, ?_, ?_⟩
  · by_cases h3 : e.radius = 0 <;> by_cases h4 : e.spread = 0 <;>
      simp [shadow_element_to_string, h3, h4]
  · intro sc hsc
    simp [shadow_color_str, hsc]
  · intro hsc
    simp [shadow_color_str, hsc]
  · intro c sc
    rfl

/-- C10: append misuse is a checked no-op — appending with a `NULL`
symbolic color, or onto a `NULL` shadow, returns early through
`g_return_if_fail` without constructing or appending any element: the heap
(and so every shadow's element sequence and resolved flag) is unchanged. -/
theorem append_null_noop (s : Store) (h : Option Nat)
    (hoffset voffset radius spread : ℚ) (inset : Bool)
    (color : Option GtkSymbolicColor) :
    _gtk_shadow_append s h hoffset voffset radius spread inset none = s ∧
    _gtk_shadow_append s none hoffset voffset radius spread inset color = s := by
  constructor
  · cases h with
    | none => rfl
    | some h' => rfl
  · rfl
